import Mathlib

set_option maxRecDepth 100000

/-!
Shallow embedding of the OmniXtend block-device driver's DMA transfer
orchestration engine (src/meca_blkdev/omni_blkdev_irq.c together with the
register helpers of src/meca_blkdev/omni_blkdev_common.h), plus the
"done"-bit test of the scenario test tool (src/meca_blkdev/omni_scenario_test.c).

The driver state is explicit: the 32-bit register file, a flat byte-addressed
physical memory (holding both the bounce buffer and the remote window), the
five statistics counters, the completion object and the request mutex.  Every
modelled C function additionally returns the list of observable events it
performs (cache flushes, register accesses, completion reset, memcpy staging,
counter updates, mutex operations), so ordering properties of the code can be
stated as properties of that trace.  The DMA engine itself and the outcome of
wait_for_completion_timeout are the environment: each transfer is parametrised
by a Boolean saying whether the engine signalled completion within the
timeout, and a completed engine run copies the programmed number of bytes from
the programmed source address to the programmed destination address.
-/

/-- DMA controller register offsets (omni_blkdev_common.h). -/
def DMA_SRC_ADDR_LO : Nat := 0x00

/-- Register offset of the high source-address word. -/
def DMA_SRC_ADDR_HI : Nat := 0x04

/-- Register offset of the low destination-address word. -/
def DMA_DST_ADDR_LO : Nat := 0x08

/-- Register offset of the high destination-address word. -/
def DMA_DST_ADDR_HI : Nat := 0x0C

/-- Register offset of the low length word. -/
def DMA_LENGTH_LO : Nat := 0x10

/-- Register offset of the high length word. -/
def DMA_LENGTH_HI : Nat := 0x14

/-- Register offset of the control register (bit 0 = start). -/
def DMA_CONTROL : Nat := 0x18

/-- Register offset of the status register. -/
def DMA_STATUS : Nat := 0x1C

/-- "done" bit of the status register in the block-device driver
(omni_blkdev_common.h line 34). -/
def DMA_STATUS_DONE : Nat := 0x4

namespace omni_chardev

/-- "done" bit of the status register in the character-device driver variant
(omni_chardev_common.h line 35). -/
def DMA_STATUS_DONE : Nat := 0x1

end omni_chardev

/-- Sector size of the block device (omni_blkdev_common.h). -/
def OMNI_SECTOR_SIZE : Nat := 512

/-- Size of the bounce buffer allocated at probe time (1 MiB). -/
def DMA_BUFFER_SIZE : Nat := 1024 * 1024

/-- Base physical address of the remote OmniXtend memory window. -/
def OMNI_REMOTE_MEM_BASE : Nat := 0x200000000

/-- Timeout handed to wait_for_completion_timeout, in milliseconds. -/
def DMA_TIMEOUT_MS : Nat := 5000

/-- Linux errno returned by omni_wait_for_dma when the completion wait
times out (the function returns -ETIMEDOUT). -/
def ETIMEDOUT : Int := 110

/-- Truncation to an unsigned 32-bit value, the effect of an iowrite32 of a
C u32 expression. -/
def u32 (v : Nat) : Nat := v % 2 ^ 32

/-- The five statistics counters of the driver (struct omni_blkdev). -/
inductive Cnt where
  | reads
  | writes
  | errors
  | timeouts
  | irqs
  deriving DecidableEq

/-- Observable events of the modelled driver code, in program order.
xcall records each invocation of omni_do_dma_transfer with its arguments. -/
inductive Ev where
  | flush (addr len : Nat)
  | regWrite (off val : Nat)
  | regRead (off : Nat)
  | reinit
  | wait (ok : Bool)
  | complete
  | ctr (c : Cnt)
  | copyToBounce (off len : Nat)
  | copyFromBounce (off len : Nat)
  | xcall (off len : Nat) (w : Bool)
  | lock
  | unlock
  deriving DecidableEq

/-- blk_status_t values used by the driver. -/
inductive blk_status where
  | BLK_STS_OK
  | BLK_STS_IOERR
  deriving DecidableEq

/-- irqreturn_t values used by the interrupt handler. -/
inductive irqreturn where
  | IRQ_NONE
  | IRQ_HANDLED
  deriving DecidableEq

/-- Request operation kinds relevant to omni_queue_rq: the switch accepts
REQ_OP_READ and REQ_OP_WRITE and rejects every other kind. -/
inductive req_op where
  | REQ_OP_READ
  | REQ_OP_WRITE
  | REQ_OP_FLUSH
  | REQ_OP_DISCARD
  deriving DecidableEq

/-- A block request: starting sector, operation kind, and the ordered
bio_vec segments, each given by its current byte contents. -/
structure request where
  sector : Nat
  op : req_op
  segments : List (List Nat)

/-- Device state of struct omni_blkdev: register file, flat physical byte
memory (bounce buffer and remote window both live here), geometry, the five
counters, the completion object and the DMA mutex. -/
structure OmniBlkdev where
  regs : Nat → Nat
  mem : Nat → Nat
  dmaBufferPhys : Nat
  dmaBufferSize : Nat
  omniMemPhys : Nat
  dmaReads : Nat
  dmaWrites : Nat
  dmaErrors : Nat
  dmaTimeouts : Nat
  irqCount : Nat
  completionDone : Bool
  mutexLocked : Bool

/-- Store a list of bytes into flat memory starting at dst (a memcpy whose
destination is physical memory). -/
def writeBytes (mem : Nat → Nat) (dst : Nat) (bs : List Nat) : Nat → Nat :=
  fun a => if dst ≤ a ∧ a < dst + bs.length then bs.getD (a - dst) 0 % 256 else mem a

/-- Read len bytes of flat memory starting at src. -/
def readBytes (mem : Nat → Nat) (src len : Nat) : List Nat :=
  (List.range len).map fun i => mem (src + i)

/-- Effect of a completed DMA engine run: len bytes are copied from src to
dst (the claims model the engine as a plain byte copy). -/
def copyMem (mem : Nat → Nat) (src dst len : Nat) : Nat → Nat :=
  fun a => if dst ≤ a ∧ a < dst + len then mem (src + (a - dst)) else mem a

/-- The sub-list of len bytes of l starting at offset. -/
def listSlice (l : List Nat) (offset len : Nat) : List Nat :=
  (l.drop offset).take len

/-- Overwrite the bytes of l at offset .. offset + bs.length with bs (a
memcpy whose destination is the caller's page buffer). -/
def listStore (l : List Nat) (offset : Nat) (bs : List Nat) : List Nat :=
  (List.range l.length).map fun i =>
    if offset ≤ i ∧ i < offset + bs.length then bs.getD (i - offset) 0 else l.getD i 0

/-- omni_write_reg32 (omni_blkdev_common.h): iowrite32 of a u32 value at a
register offset; returns the new state and the register-write event. -/
def omni_write_reg32 (dev : OmniBlkdev) (off val : Nat) : OmniBlkdev × List Ev :=
  ({ dev with regs := fun o => if o = off then u32 val else dev.regs o },
   [Ev.regWrite off (u32 val)])

/-- dma_setup_transfer (omni_blkdev_irq.c lines 42-55): program source,
destination and length registers, splitting 64-bit values into lo/hi words. -/
def dma_setup_transfer (dev : OmniBlkdev) (src dst len : Nat) : OmniBlkdev × List Ev :=
  let r1 := omni_write_reg32 dev DMA_SRC_ADDR_LO src
  let r2 := omni_write_reg32 r1.1 DMA_SRC_ADDR_HI (src / 2 ^ 32)
  let r3 := omni_write_reg32 r2.1 DMA_DST_ADDR_LO dst
  let r4 := omni_write_reg32 r3.1 DMA_DST_ADDR_HI (dst / 2 ^ 32)
  let r5 := omni_write_reg32 r4.1 DMA_LENGTH_LO len
  let r6 := omni_write_reg32 r5.1 DMA_LENGTH_HI 0
  (r6.1, r1.2 ++ r2.2 ++ r3.2 ++ r4.2 ++ r5.2 ++ r6.2)

/-- dma_start (omni_blkdev_irq.c lines 57-60): write 1 to the control
register. -/
def dma_start (dev : OmniBlkdev) : OmniBlkdev × List Ev :=
  omni_write_reg32 dev DMA_CONTROL 1

/-- Modelled hardware behaviour: a DMA engine run that reached completion
copies the programmed number of bytes from the programmed source to the
programmed destination, reassembling the 64-bit values from the lo/hi
register words. -/
def dmaEngineRun (dev : OmniBlkdev) : OmniBlkdev :=
  let src := dev.regs DMA_SRC_ADDR_LO + dev.regs DMA_SRC_ADDR_HI * 2 ^ 32
  let dst := dev.regs DMA_DST_ADDR_LO + dev.regs DMA_DST_ADDR_HI * 2 ^ 32
  let len := dev.regs DMA_LENGTH_LO + dev.regs DMA_LENGTH_HI * 2 ^ 32
  { dev with mem := copyMem dev.mem src dst len }

/-- omni_wait_for_dma (omni_blkdev_irq.c lines 92-107).  The signaled
parameter is the environment: whether the completion was signalled within the
DMA_TIMEOUT_MS budget.  On timeout the function reads the status register for
its diagnostic message, increments the timeout counter and returns
-ETIMEDOUT; on success it returns 0. -/
def omni_wait_for_dma (dev : OmniBlkdev) (signaled : Bool) : Int × OmniBlkdev × List Ev :=
  if signaled then
    (0, dev, [Ev.wait true])
  else
    (-ETIMEDOUT, { dev with dmaTimeouts := dev.dmaTimeouts + 1 },
     [Ev.wait false, Ev.regRead DMA_STATUS, Ev.ctr Cnt.timeouts])

/-- omni_do_dma_transfer (omni_blkdev_irq.c lines 118-155): flush the source
side, program the registers, reinitialise the completion, start the engine,
wait, and on success flush the destination side and bump the direction
counter; on timeout bump the error counter and return the error.  engineOk is
the environment: whether the engine completed (and hence copied the bytes)
within the timeout. -/
def omni_do_dma_transfer (dev : OmniBlkdev) (omni_offset len : Nat)
    (is_write engineOk : Bool) : Int × OmniBlkdev × List Ev :=
  let omni_addr := dev.omniMemPhys + omni_offset
  let pre :=
    if is_write then
      let s := dma_setup_transfer dev dev.dmaBufferPhys omni_addr len
      (s.1, Ev.flush dev.dmaBufferPhys len :: s.2)
    else
      let s := dma_setup_transfer dev omni_addr dev.dmaBufferPhys len
      (s.1, Ev.flush omni_addr len :: s.2)
  let d1 : OmniBlkdev := { pre.1 with completionDone := false }
  let st := dma_start d1
  let d2 := if engineOk then dmaEngineRun st.1 else st.1
  let w := omni_wait_for_dma d2 engineOk
  let tr0 := Ev.xcall omni_offset len is_write :: pre.2 ++ [Ev.reinit] ++ st.2 ++ w.2.2
  if w.1 = 0 then
    if is_write then
      (0, { w.2.1 with dmaWrites := w.2.1.dmaWrites + 1 },
       tr0 ++ [Ev.flush omni_addr len, Ev.ctr Cnt.writes])
    else
      (0, { w.2.1 with dmaReads := w.2.1.dmaReads + 1 },
       tr0 ++ [Ev.flush dev.dmaBufferPhys len, Ev.ctr Cnt.reads])
  else
    (w.1, { w.2.1 with dmaErrors := w.2.1.dmaErrors + 1 }, tr0 ++ [Ev.ctr Cnt.errors])

/-- omni_dma_irq_handler (omni_blkdev_irq.c lines 71-86): read the status
register; if the done bit is clear return IRQ_NONE untouched, otherwise
signal the completion, bump the irq counter and return IRQ_HANDLED. -/
def omni_dma_irq_handler (dev : OmniBlkdev) : irqreturn × OmniBlkdev × List Ev :=
  let status := dev.regs DMA_STATUS
  if status &&& DMA_STATUS_DONE = 0 then
    (irqreturn.IRQ_NONE, dev, [Ev.regRead DMA_STATUS])
  else
    (irqreturn.IRQ_HANDLED,
     { dev with completionDone := true, irqCount := dev.irqCount + 1 },
     [Ev.regRead DMA_STATUS, Ev.complete, Ev.ctr Cnt.irqs])

/-- The inner while loop of omni_handle_request (omni_blkdev_irq.c lines
187-213): chunk the current segment by the bounce-buffer size, staging the
bytes into the bounce buffer before a write transfer and unstaging them after
a read transfer, aborting on the first failed transfer.  The first Nat
argument is fuel bounding the number of loop iterations; every caller passes
at least the segment length, which suffices whenever the bounce buffer is
non-empty.  oracle gives the engine-completion outcome of each transfer,
indexed by a running chunk counter. -/
def omni_chunk_loop (oracle : Nat → Bool) (is_write : Bool) (omni_offset : Nat) :
    Nat → OmniBlkdev → List Nat → Nat → Nat →
    Int × OmniBlkdev × List Nat × List Ev × Nat
  | 0, dev, buf, _, cidx => (0, dev, buf, [], cidx)
  | fuel + 1, dev, buf, offset, cidx =>
    if offset < buf.length then
      let chunk_size := min (buf.length - offset) dev.dmaBufferSize
      let staged :=
        if is_write then
          ({ dev with
              mem := writeBytes dev.mem dev.dmaBufferPhys (listSlice buf offset chunk_size) },
           [Ev.copyToBounce offset chunk_size])
        else (dev, ([] : List Ev))
      let t := omni_do_dma_transfer staged.1 (omni_offset + offset) chunk_size is_write
        (oracle cidx)
      if t.1 = 0 then
        let unstaged :=
          if is_write then (buf, ([] : List Ev))
          else (listStore buf offset (readBytes t.2.1.mem t.2.1.dmaBufferPhys chunk_size),
                [Ev.copyFromBounce offset chunk_size])
        let rest := omni_chunk_loop oracle is_write omni_offset fuel t.2.1 unstaged.1
          (offset + chunk_size) (cidx + 1)
        (rest.1, rest.2.1, rest.2.2.1,
         staged.2 ++ t.2.2 ++ unstaged.2 ++ rest.2.2.2.1, rest.2.2.2.2)
      else
        (t.1, t.2.1, buf, staged.2 ++ t.2.2, cidx + 1)
    else (0, dev, buf, [], cidx)

/-- The rq_for_each_segment loop of omni_handle_request (omni_blkdev_irq.c
lines 180-219): process each segment in order at the sector cursor, advance
the cursor by the segment length in sectors, and abort with BLK_STS_IOERR on
the first failed chunk. -/
def omni_seg_loop (oracle : Nat → Bool) (is_write : Bool) :
    List (List Nat) → OmniBlkdev → Nat → Nat →
    blk_status × OmniBlkdev × List (List Nat) × List Ev × Nat
  | [], dev, _, cidx => (blk_status.BLK_STS_OK, dev, [], [], cidx)
  | buf :: rest, dev, sector, cidx =>
    let omni_offset := sector * OMNI_SECTOR_SIZE
    let c := omni_chunk_loop oracle is_write omni_offset buf.length dev buf 0 cidx
    if c.1 = 0 then
      let r := omni_seg_loop oracle is_write rest c.2.1
        (sector + buf.length / OMNI_SECTOR_SIZE) c.2.2.2.2
      (r.1, r.2.1, c.2.2.1 :: r.2.2.1, c.2.2.2.1 ++ r.2.2.2.1, r.2.2.2.2)
    else
      (blk_status.BLK_STS_IOERR, c.2.1, c.2.2.1 :: rest, c.2.2.2.1, c.2.2.2.2)

/-- The is_write test of omni_handle_request (line 171:
req_op(rq) == REQ_OP_WRITE). -/
def req_is_write (rq : request) : Bool :=
  match rq.op with
  | req_op.REQ_OP_WRITE => true
  | _ => false

/-- omni_handle_request (omni_blkdev_irq.c lines 165-224): take the DMA
mutex, walk all segments, release the mutex on every return path.  The
returned segment list holds the page contents after the request (reads
overwrite them from the bounce buffer). -/
def omni_handle_request (dev : OmniBlkdev) (rq : request) (oracle : Nat → Bool) :
    blk_status × OmniBlkdev × List (List Nat) × List Ev :=
  let is_write : Bool := req_is_write rq
  let d0 : OmniBlkdev := { dev with mutexLocked := true }
  let r := omni_seg_loop oracle is_write rq.segments d0 rq.sector 0
  (r.1, { r.2.1 with mutexLocked := false }, r.2.2.1,
   Ev.lock :: r.2.2.2.1 ++ [Ev.unlock])

/-- omni_queue_rq (omni_blkdev_irq.c lines 230-256): reject any operation
other than REQ_OP_READ / REQ_OP_WRITE with BLK_STS_IOERR before touching
anything; otherwise mark the request started, run omni_handle_request, end
the request with its status, and return BLK_STS_OK to the block layer.  The
Bool component records whether blk_mq_start_request ran, and the Option
component the status passed to blk_mq_end_request. -/
def omni_queue_rq (dev : OmniBlkdev) (rq : request) (oracle : Nat → Bool) :
    blk_status × OmniBlkdev × List (List Nat) × List Ev × Bool × Option blk_status :=
  match rq.op with
  | req_op.REQ_OP_READ | req_op.REQ_OP_WRITE =>
    let h := omni_handle_request dev rq oracle
    (blk_status.BLK_STS_OK, h.2.1, h.2.2.1, h.2.2.2, true, some h.1)
  | _ => (blk_status.BLK_STS_IOERR, dev, rq.segments, [], false, none)

/-- The "done" test of the scenario test tool's polling loop
(omni_scenario_test.c line 193: if (status & 0x1)). -/
def scenario_status_done (status : Nat) : Bool :=
  status &&& 0x1 != 0

/-- The lengths of the executor invocations recorded in a trace. -/
def xcallLens (tr : List Ev) : List Nat :=
  tr.filterMap fun e =>
    match e with
    | Ev.xcall _ l _ => some l
    | _ => none

/-- Whether an event is a register access (read or write). -/
def isRegAccess : Ev → Bool
  | Ev.regRead _ => true
  | Ev.regWrite _ _ => true
  | _ => false

/-- The events strictly after the timed-out completion wait in a trace. -/
def afterTimeoutWait (tr : List Ev) : List Ev :=
  (tr.dropWhile fun e =>
    match e with
    | Ev.wait false => false
    | _ => true).drop 1

/-- The chunk schedule of one segment of length L with bounce-buffer size B:
full chunks of size B followed by the remainder, the schedule actually
produced by the while loop of omni_handle_request. -/
def segChunks (B L : Nat) : List Nat :=
  List.replicate (L / B) B ++ (if L % B = 0 then [] else [L % B])

/-- The common event prefix of every executor invocation: the xcall marker,
the source-side flush, the six register writes programming the transfer, the
completion reinitialisation and the start-bit write, in program order. -/
def xferPrefix (src dst len off : Nat) (w : Bool) : List Ev :=
  [Ev.xcall off len w, Ev.flush src len,
   Ev.regWrite DMA_SRC_ADDR_LO (u32 src), Ev.regWrite DMA_SRC_ADDR_HI (u32 (src / 2 ^ 32)),
   Ev.regWrite DMA_DST_ADDR_LO (u32 dst), Ev.regWrite DMA_DST_ADDR_HI (u32 (dst / 2 ^ 32)),
   Ev.regWrite DMA_LENGTH_LO (u32 len), Ev.regWrite DMA_LENGTH_HI (u32 0),
   Ev.reinit, Ev.regWrite DMA_CONTROL (u32 1)]

/-- A concrete test device: empty registers and memory, the probe-time
geometry (1 MiB bounce buffer, remote window at OMNI_REMOTE_MEM_BASE), all
counters zero. -/
def devT : OmniBlkdev :=
  { regs := fun _ => 0
    mem := fun _ => 0
    dmaBufferPhys := 0x80010000
    dmaBufferSize := DMA_BUFFER_SIZE
    omniMemPhys := OMNI_REMOTE_MEM_BASE
    dmaReads := 0
    dmaWrites := 0
    dmaErrors := 0
    dmaTimeouts := 0
    irqCount := 0
    completionDone := false
    mutexLocked := false }

/-- The test device with a 4-byte bounce buffer, to exercise multi-chunk
segments on small inputs. -/
def devT4 : OmniBlkdev := { devT with dmaBufferSize := 4 }

/-- Environment in which every transfer completes in time. -/
def oracleT : Nat → Bool := fun _ => true

/-- Environment in which no transfer ever completes in time. -/
def oracleF : Nat → Bool := fun _ => false

/-- The four little-endian bytes of a 32-bit word. -/
def wordBytesLE (w : Nat) : List Nat :=
  [w % 256, w / 256 % 256, w / 65536 % 256, w / 16777216 % 256]

/-- The 256-byte test pattern of words 0xBB000000 + i, i = 0 .. 63. -/
def patternBuf : List Nat :=
  (List.range 64).flatMap fun i => wordBytesLE (0xBB000000 + i)

/-- Write request carrying the 256-byte test pattern at sector 0. -/
def rqWpat : request := ⟨0, req_op.REQ_OP_WRITE, [patternBuf]⟩

/-- Read request of 256 bytes at sector 0 (initial page contents zero). -/
def rqRpat : request := ⟨0, req_op.REQ_OP_READ, [List.replicate 256 0]⟩

/-- A one-byte read request, used to exercise the failure paths. -/
def rqSmall : request := ⟨0, req_op.REQ_OP_READ, [[42]]⟩

/-- A ten-byte read request, used with the 4-byte bounce buffer to
exercise multi-chunk segments. -/
def rqChunks : request := ⟨0, req_op.REQ_OP_READ, [List.replicate 10 7]⟩

/-- A request of an unsupported kind. -/
def rqOther : request := ⟨0, req_op.REQ_OP_FLUSH, [[1, 2]]⟩

/-- The test device with the done bit set in its status register. -/
def devS4 : OmniBlkdev := { devT with regs := fun o => if o = DMA_STATUS then 4 else 0 }

/-! ### Basic facts about the DMA transfer executor -/

lemma do_dma_ok_ret (dev : OmniBlkdev) (off len : Nat) (w : Bool) :
    (omni_do_dma_transfer dev off len w true).1 = 0 := by
  cases w <;> rfl

lemma do_dma_timeout_ret (dev : OmniBlkdev) (off len : Nat) (w : Bool) :
    (omni_do_dma_transfer dev off len w false).1 = -ETIMEDOUT := by
  cases w <;> rfl

lemma do_dma_geom (dev : OmniBlkdev) (off len : Nat) (w ok : Bool) :
    (omni_do_dma_transfer dev off len w ok).2.1.dmaBufferPhys = dev.dmaBufferPhys
    ∧ (omni_do_dma_transfer dev off len w ok).2.1.dmaBufferSize = dev.dmaBufferSize
    ∧ (omni_do_dma_transfer dev off len w ok).2.1.omniMemPhys = dev.omniMemPhys := by
  cases w <;> cases ok <;> exact ⟨rfl, rfl, rfl⟩

lemma do_dma_timeout_state (dev : OmniBlkdev) (off len : Nat) (w : Bool) :
    (omni_do_dma_transfer dev off len w false).2.1.dmaTimeouts = dev.dmaTimeouts + 1
    ∧ (omni_do_dma_transfer dev off len w false).2.1.dmaErrors = dev.dmaErrors + 1
    ∧ (omni_do_dma_transfer dev off len w false).2.1.dmaReads = dev.dmaReads
    ∧ (omni_do_dma_transfer dev off len w false).2.1.dmaWrites = dev.dmaWrites
    ∧ (omni_do_dma_transfer dev off len w false).2.1.irqCount = dev.irqCount
    ∧ (omni_do_dma_transfer dev off len w false).2.1.mem = dev.mem := by
  cases w <;> exact ⟨rfl, rfl, rfl, rfl, rfl, rfl⟩

lemma do_dma_ok_state (dev : OmniBlkdev) (off len : Nat) (w : Bool) :
    (omni_do_dma_transfer dev off len w true).2.1.dmaTimeouts = dev.dmaTimeouts
    ∧ (omni_do_dma_transfer dev off len w true).2.1.dmaErrors = dev.dmaErrors
    ∧ (omni_do_dma_transfer dev off len w true).2.1.irqCount = dev.irqCount
    ∧ (omni_do_dma_transfer dev off len w true).2.1.dmaWrites
        = (if w then dev.dmaWrites + 1 else dev.dmaWrites)
    ∧ (omni_do_dma_transfer dev off len w true).2.1.dmaReads
        = (if w then dev.dmaReads else dev.dmaReads + 1) := by
  cases w <;> exact ⟨rfl, rfl, rfl, rfl, rfl⟩

lemma do_dma_tr_ok (dev : OmniBlkdev) (off len : Nat) (w : Bool) :
    (omni_do_dma_transfer dev off len w true).2.2 =
      xferPrefix (if w then dev.dmaBufferPhys else dev.omniMemPhys + off)
          (if w then dev.omniMemPhys + off else dev.dmaBufferPhys) len off w
        ++ [Ev.wait true,
            Ev.flush (if w then dev.omniMemPhys + off else dev.dmaBufferPhys) len,
            Ev.ctr (if w then Cnt.writes else Cnt.reads)] := by
  cases w <;> rfl

lemma do_dma_tr_timeout (dev : OmniBlkdev) (off len : Nat) (w : Bool) :
    (omni_do_dma_transfer dev off len w false).2.2 =
      xferPrefix (if w then dev.dmaBufferPhys else dev.omniMemPhys + off)
          (if w then dev.omniMemPhys + off else dev.dmaBufferPhys) len off w
        ++ [Ev.wait false, Ev.regRead DMA_STATUS, Ev.ctr Cnt.timeouts, Ev.ctr Cnt.errors] := by
  cases w <;> rfl

/-! ### Error propagation through the chunk and segment loops -/

lemma errors_not_mem_xferPrefix (src dst len off : Nat) (w : Bool) :
    Ev.ctr Cnt.errors ∉ xferPrefix src dst len off w := by
  simp [xferPrefix]

lemma errors_not_mem_do_dma_ok (dev : OmniBlkdev) (off len : Nat) (w : Bool) :
    Ev.ctr Cnt.errors ∉ (omni_do_dma_transfer dev off len w true).2.2 := by
  rw [do_dma_tr_ok]
  cases w <;> simp [xferPrefix]

lemma chunk_loop_exit (oracle : Nat → Bool) (w : Bool) (o fuel : Nat) (dev : OmniBlkdev)
    (buf : List Nat) (offset cidx : Nat) (h : ¬ offset < buf.length) :
    omni_chunk_loop oracle w o fuel dev buf offset cidx = (0, dev, buf, [], cidx) := by
  cases fuel <;> simp [omni_chunk_loop, h]

lemma exists_snoc_append {α : Type} {l : List α} {a : α} (h : ∃ p, l = p ++ [a])
    (k : List α) : ∃ p, k ++ l = p ++ [a] := by
  obtain ⟨p, hp⟩ := h
  exact ⟨k ++ p, by rw [hp, List.append_assoc]⟩

lemma do_dma_timeout_snoc (dev : OmniBlkdev) (off len : Nat) (w : Bool) :
    ∃ p, (omni_do_dma_transfer dev off len w false).2.2 = p ++ [Ev.ctr Cnt.errors] := by
  refine ⟨xferPrefix (if w then dev.dmaBufferPhys else dev.omniMemPhys + off)
      (if w then dev.omniMemPhys + off else dev.dmaBufferPhys) len off w
      ++ [Ev.wait false, Ev.regRead DMA_STATUS, Ev.ctr Cnt.timeouts], ?_⟩
  rw [do_dma_tr_timeout, List.append_assoc]
  rfl

lemma chunk_loop_step_fail (oracle : Nat → Bool) (w : Bool) (o n : Nat) (dev : OmniBlkdev)
    (buf : List Nat) (offset cidx : Nat) (h : offset < buf.length)
    (horc : oracle cidx = false) :
    omni_chunk_loop oracle w o (n + 1) dev buf offset cidx =
      (let chunk_size := min (buf.length - offset) dev.dmaBufferSize
       let staged : OmniBlkdev × List Ev :=
         if w then
           ({ dev with
               mem := writeBytes dev.mem dev.dmaBufferPhys (listSlice buf offset chunk_size) },
            [Ev.copyToBounce offset chunk_size])
         else (dev, [])
       let t := omni_do_dma_transfer staged.1 (o + offset) chunk_size w false
       (t.1, t.2.1, buf, staged.2 ++ t.2.2, cidx + 1)) := by
  cases w <;>
  · simp only [omni_chunk_loop, if_pos h, horc, Bool.false_eq_true, ↓reduceIte]
    try rfl

lemma chunk_loop_step_ok (oracle : Nat → Bool) (w : Bool) (o n : Nat) (dev : OmniBlkdev)
    (buf : List Nat) (offset cidx : Nat) (h : offset < buf.length)
    (horc : oracle cidx = true) :
    omni_chunk_loop oracle w o (n + 1) dev buf offset cidx =
      (let chunk_size := min (buf.length - offset) dev.dmaBufferSize
       let staged : OmniBlkdev × List Ev :=
         if w then
           ({ dev with
               mem := writeBytes dev.mem dev.dmaBufferPhys (listSlice buf offset chunk_size) },
            [Ev.copyToBounce offset chunk_size])
         else (dev, [])
       let t := omni_do_dma_transfer staged.1 (o + offset) chunk_size w true
       let unstaged :=
         if w then (buf, ([] : List Ev))
         else (listStore buf offset (readBytes t.2.1.mem t.2.1.dmaBufferPhys chunk_size),
               [Ev.copyFromBounce offset chunk_size])
       let rest := omni_chunk_loop oracle w o n t.2.1 unstaged.1 (offset + chunk_size) (cidx + 1)
       (rest.1, rest.2.1, rest.2.2.1,
        staged.2 ++ t.2.2 ++ unstaged.2 ++ rest.2.2.2.1, rest.2.2.2.2)) := by
  cases w <;>
  · simp only [omni_chunk_loop, if_pos h, horc, Bool.false_eq_true, ↓reduceIte]
    try rfl


lemma chunk_loop_err (oracle : Nat → Bool) (w : Bool) (o : Nat) :
    ∀ (fuel : Nat) (dev : OmniBlkdev) (buf : List Nat) (offset cidx : Nat),
      ((omni_chunk_loop oracle w o fuel dev buf offset cidx).1 = 0 →
         Ev.ctr Cnt.errors ∉ (omni_chunk_loop oracle w o fuel dev buf offset cidx).2.2.2.1)
      ∧ ((omni_chunk_loop oracle w o fuel dev buf offset cidx).1 ≠ 0 →
         ∃ pre, (omni_chunk_loop oracle w o fuel dev buf offset cidx).2.2.2.1
            = pre ++ [Ev.ctr Cnt.errors]) := by
  cases w <;>
  · intro fuel
    induction fuel with
    | zero => intro dev buf offset cidx; simp [omni_chunk_loop]
    | succ n ih =>
      intro dev buf offset cidx
      by_cases h : offset < buf.length
      · rcases horc : oracle cidx with _ | _
        · rw [chunk_loop_step_fail oracle _ o n dev buf offset cidx h horc]
          simp only [Bool.false_eq_true, ↓reduceIte]
          constructor
          · intro h0
            rw [do_dma_timeout_ret] at h0
            exact absurd h0 (by decide)
          · intro _
            exact exists_snoc_append (do_dma_timeout_snoc _ _ _ _) _
        · rw [chunk_loop_step_ok oracle _ o n dev buf offset cidx h horc]
          simp only [Bool.false_eq_true, ↓reduceIte]
          constructor
          · intro h0
            have hm := (ih _ _ _ _).1 h0
            simp only [List.mem_append, not_or]
            exact ⟨⟨⟨by simp, errors_not_mem_do_dma_ok _ _ _ _⟩, by simp⟩, hm⟩
          · intro h0
            exact exists_snoc_append ((ih _ _ _ _).2 h0) _
      · rw [chunk_loop_exit oracle _ o (n + 1) dev buf offset cidx h]
        simp

lemma seg_loop_err (oracle : Nat → Bool) (w : Bool) :
    ∀ (segs : List (List Nat)) (dev : OmniBlkdev) (sector cidx : Nat),
      ((omni_seg_loop oracle w segs dev sector cidx).1 = blk_status.BLK_STS_OK →
         Ev.ctr Cnt.errors ∉ (omni_seg_loop oracle w segs dev sector cidx).2.2.2.1)
      ∧ ((omni_seg_loop oracle w segs dev sector cidx).1 ≠ blk_status.BLK_STS_OK →
         (omni_seg_loop oracle w segs dev sector cidx).1 = blk_status.BLK_STS_IOERR
         ∧ ∃ pre, (omni_seg_loop oracle w segs dev sector cidx).2.2.2.1
             = pre ++ [Ev.ctr Cnt.errors]) := by
  intro segs
  induction segs with
  | nil => intro dev sector cidx; simp [omni_seg_loop]
  | cons buf rest ih =>
    intro dev sector cidx
    by_cases hc : (omni_chunk_loop oracle w (sector * OMNI_SECTOR_SIZE)
        buf.length dev buf 0 cidx).1 = 0
    · simp only [omni_seg_loop, if_pos hc]
      constructor
      · intro h0
        simp only [List.mem_append, not_or]
        exact ⟨(chunk_loop_err oracle w _ _ _ _ _ _).1 hc, (ih _ _ _).1 h0⟩
      · intro h0
        rcases (ih _ _ _).2 h0 with ⟨hio, pre, hpre⟩
        exact ⟨hio, exists_snoc_append ⟨pre, hpre⟩ _⟩
    · simp only [omni_seg_loop, if_neg hc]
      constructor
      · intro h0
        exact absurd h0 (by decide)
      · intro _
        refine ⟨?_, (chunk_loop_err oracle w _ _ _ _ _ _).2 hc⟩
        simp

/-- C5: if any chunk's executor invocation fails, the request is aborted at
once: the trace ends with that failure's error-counter bump followed only by
the mutex release, the result is BLK_STS_IOERR, and the mutex is released on
every return path. -/
theorem claimC5 (dev : OmniBlkdev) (rq : request) (oracle : Nat → Bool) :
    (omni_handle_request dev rq oracle).2.1.mutexLocked = false
    ∧ (∃ body, (omni_handle_request dev rq oracle).2.2.2
        = Ev.lock :: body ++ [Ev.unlock])
    ∧ ((omni_handle_request dev rq oracle).1 = blk_status.BLK_STS_IOERR ↔
        Ev.ctr Cnt.errors ∈ (omni_handle_request dev rq oracle).2.2.2)
    ∧ ((omni_handle_request dev rq oracle).1 = blk_status.BLK_STS_IOERR →
        ∃ pre, (omni_handle_request dev rq oracle).2.2.2
          = pre ++ [Ev.ctr Cnt.errors, Ev.unlock]) := by
  have hseg := seg_loop_err oracle (req_is_write rq) rq.segments
    { dev with mutexLocked := true } rq.sector 0
  have h1 : (omni_handle_request dev rq oracle).1
      = (omni_seg_loop oracle (req_is_write rq) rq.segments
          { dev with mutexLocked := true } rq.sector 0).1 := rfl
  have h2 : (omni_handle_request dev rq oracle).2.2.2
      = Ev.lock :: (omni_seg_loop oracle (req_is_write rq) rq.segments
          { dev with mutexLocked := true } rq.sector 0).2.2.2.1 ++ [Ev.unlock] := rfl
  refine ⟨rfl, ⟨_, rfl⟩, ?_, ?_⟩
  · rw [h1, h2]
    constructor
    · intro hio
      rcases (hseg.2 (by rw [hio]; decide)).2 with ⟨pre, hpre⟩
      rw [hpre]
      simp
    · intro hmem
      have hmem' : Ev.ctr Cnt.errors ∈ (omni_seg_loop oracle (req_is_write rq) rq.segments
          { dev with mutexLocked := true } rq.sector 0).2.2.2.1 := by
        rcases List.mem_cons.mp hmem with h | h
        · exact absurd h (by decide)
        · rcases List.mem_append.mp h with h2 | h2
          · exact h2
          · exact absurd (List.mem_singleton.mp h2) (by decide)
      by_cases hok : (omni_seg_loop oracle (req_is_write rq) rq.segments
          { dev with mutexLocked := true } rq.sector 0).1 = blk_status.BLK_STS_OK
      · exact absurd hmem' (hseg.1 hok)
      · exact (hseg.2 hok).1
  · intro hio
    have hio' : (omni_seg_loop oracle (req_is_write rq) rq.segments
        { dev with mutexLocked := true } rq.sector 0).1 = blk_status.BLK_STS_IOERR := by
      rw [← h1]; exact hio
    rcases (hseg.2 (by rw [hio']; decide)).2 with ⟨pre, hpre⟩
    refine ⟨Ev.lock :: pre, ?_⟩
    rw [h2, hpre]
    simp

/-- C5 witness: a concrete one-chunk request whose transfer times out. -/
theorem claimC5_witness :
    (omni_handle_request devT rqSmall oracleF).2.1.mutexLocked = false
    ∧ (∃ body, (omni_handle_request devT rqSmall oracleF).2.2.2
        = Ev.lock :: body ++ [Ev.unlock])
    ∧ ((omni_handle_request devT rqSmall oracleF).1 = blk_status.BLK_STS_IOERR ↔
        Ev.ctr Cnt.errors ∈ (omni_handle_request devT rqSmall oracleF).2.2.2)
    ∧ (∃ pre, (omni_handle_request devT rqSmall oracleF).2.2.2
        = pre ++ [Ev.ctr Cnt.errors, Ev.unlock]) := by
  have h := claimC5 devT rqSmall oracleF
  exact ⟨h.1, h.2.1, h.2.2.1, h.2.2.2 (by decide)⟩

/-- C1: every executor invocation flushes the source side (bounce buffer for
writes, remote range for reads) before anything else; on success the
destination side (remote range for writes, bounce buffer for reads) is
flushed after the transfer, immediately before the direction counter bump,
and 0 is returned with the reads or writes counter incremented. -/
theorem claimC1 (dev : OmniBlkdev) (off len : Nat) (w ok : Bool) :
    (∃ rest, (omni_do_dma_transfer dev off len w ok).2.2
        = Ev.xcall off len w
          :: Ev.flush (if w then dev.dmaBufferPhys else dev.omniMemPhys + off) len :: rest)
    ∧ ((omni_do_dma_transfer dev off len w true).1 = 0
       ∧ (∃ pre, (omni_do_dma_transfer dev off len w true).2.2
           = pre ++ [Ev.flush (if w then dev.omniMemPhys + off else dev.dmaBufferPhys) len,
                     Ev.ctr (if w then Cnt.writes else Cnt.reads)])
       ∧ (omni_do_dma_transfer dev off len w true).2.1.dmaWrites
           = (if w then dev.dmaWrites + 1 else dev.dmaWrites)
       ∧ (omni_do_dma_transfer dev off len w true).2.1.dmaReads
           = (if w then dev.dmaReads else dev.dmaReads + 1)) := by
  refine ⟨?_, do_dma_ok_ret _ _ _ _, ?_,
    (do_dma_ok_state _ _ _ _).2.2.2.1, (do_dma_ok_state _ _ _ _).2.2.2.2⟩
  · cases w <;> cases ok <;> exact ⟨_, rfl⟩
  · cases w <;> exact ⟨_, rfl⟩

/-- C6: on every executor invocation the completion object is reset strictly
after the six transfer registers are programmed and strictly before the
start bit is written to the control register. -/
theorem claimC6 (dev : OmniBlkdev) (off len : Nat) (w ok : Bool) :
    ∃ post, (omni_do_dma_transfer dev off len w ok).2.2
      = Ev.xcall off len w
        :: Ev.flush (if w then dev.dmaBufferPhys else dev.omniMemPhys + off) len
        :: Ev.regWrite DMA_SRC_ADDR_LO
             (u32 (if w then dev.dmaBufferPhys else dev.omniMemPhys + off))
        :: Ev.regWrite DMA_SRC_ADDR_HI
             (u32 ((if w then dev.dmaBufferPhys else dev.omniMemPhys + off) / 2 ^ 32))
        :: Ev.regWrite DMA_DST_ADDR_LO
             (u32 (if w then dev.omniMemPhys + off else dev.dmaBufferPhys))
        :: Ev.regWrite DMA_DST_ADDR_HI
             (u32 ((if w then dev.omniMemPhys + off else dev.dmaBufferPhys) / 2 ^ 32))
        :: Ev.regWrite DMA_LENGTH_LO (u32 len)
        :: Ev.regWrite DMA_LENGTH_HI (u32 0)
        :: Ev.reinit
        :: Ev.regWrite DMA_CONTROL (u32 1)
        :: post := by
  cases w <;> cases ok <;> exact ⟨_, rfl⟩

/-- C2 counterexample: on a timed-out chunk the driver performs a further
register interaction after the failed wait — the diagnostic status-register
read of omni_wait_for_dma — so "without any further register interaction"
is false as stated. -/
theorem claimC2_counterexample :
    (afterTimeoutWait (omni_do_dma_transfer devT 0 512 false false).2.2)
      = [Ev.regRead DMA_STATUS, Ev.ctr Cnt.timeouts, Ev.ctr Cnt.errors]
    ∧ (afterTimeoutWait (omni_do_dma_transfer devT 0 512 false false).2.2).any isRegAccess
        = true := by decide

/-- C2 as amended: a timed-out chunk bumps the timeout and error counters by
exactly one each, leaves the other counters unchanged, returns -ETIMEDOUT
after exactly one diagnostic status-register read (and no register write)
following the failed wait, and the surrounding request fails with
BLK_STS_IOERR with the same counter deltas. -/
theorem claimC2_amended :
    (∀ (dev : OmniBlkdev) (off len : Nat) (w : Bool),
      (omni_do_dma_transfer dev off len w false).1 = -ETIMEDOUT
      ∧ (omni_do_dma_transfer dev off len w false).2.1.dmaTimeouts = dev.dmaTimeouts + 1
      ∧ (omni_do_dma_transfer dev off len w false).2.1.dmaErrors = dev.dmaErrors + 1
      ∧ (omni_do_dma_transfer dev off len w false).2.1.dmaReads = dev.dmaReads
      ∧ (omni_do_dma_transfer dev off len w false).2.1.dmaWrites = dev.dmaWrites
      ∧ (omni_do_dma_transfer dev off len w false).2.1.irqCount = dev.irqCount
      ∧ ∃ pre, (omni_do_dma_transfer dev off len w false).2.2
          = pre ++ [Ev.wait false, Ev.regRead DMA_STATUS, Ev.ctr Cnt.timeouts,
                    Ev.ctr Cnt.errors])
    ∧ (∀ (dev : OmniBlkdev) (rq : request) (buf : List Nat) (rest : List (List Nat)),
        rq.segments = buf :: rest → 0 < buf.length →
        (omni_handle_request dev rq oracleF).1 = blk_status.BLK_STS_IOERR
        ∧ (omni_handle_request dev rq oracleF).2.1.dmaTimeouts = dev.dmaTimeouts + 1
        ∧ (omni_handle_request dev rq oracleF).2.1.dmaErrors = dev.dmaErrors + 1
        ∧ (omni_handle_request dev rq oracleF).2.1.dmaReads = dev.dmaReads
        ∧ (omni_handle_request dev rq oracleF).2.1.dmaWrites = dev.dmaWrites
        ∧ (omni_handle_request dev rq oracleF).2.1.irqCount = dev.irqCount) := by
  constructor
  · intro dev off len w
    refine ⟨do_dma_timeout_ret _ _ _ _, (do_dma_timeout_state _ _ _ _).1,
      (do_dma_timeout_state _ _ _ _).2.1, (do_dma_timeout_state _ _ _ _).2.2.1,
      (do_dma_timeout_state _ _ _ _).2.2.2.1, (do_dma_timeout_state _ _ _ _).2.2.2.2.1,
      ⟨xferPrefix (if w then dev.dmaBufferPhys else dev.omniMemPhys + off)
        (if w then dev.omniMemPhys + off else dev.dmaBufferPhys) len off w, ?_⟩⟩
    rw [do_dma_tr_timeout]
  · intro dev rq buf rest hseg hlen
    obtain ⟨n, hn⟩ : ∃ n, buf.length = n + 1 := ⟨buf.length - 1, by omega⟩
    rcases hw : req_is_write rq with _ | _ <;>
    · simp only [omni_handle_request, hseg, hw, omni_seg_loop]
      rw [hn, chunk_loop_step_fail oracleF _ _ n _ buf 0 0 (by omega) rfl]
      simp only [Bool.false_eq_true, ↓reduceIte, do_dma_timeout_ret]
      split
      · next hcond => exact absurd hcond (by decide)
      · exact ⟨by simp, (do_dma_timeout_state _ _ _ _).1, (do_dma_timeout_state _ _ _ _).2.1,
          (do_dma_timeout_state _ _ _ _).2.2.1, (do_dma_timeout_state _ _ _ _).2.2.2.1,
          (do_dma_timeout_state _ _ _ _).2.2.2.2.1⟩

/-- C2 witness: the amended claim evaluated at a concrete device, transfer
and one-byte request. -/
theorem claimC2_witness :
    ((omni_do_dma_transfer devT 0 64 false false).1 = -ETIMEDOUT
     ∧ (omni_do_dma_transfer devT 0 64 false false).2.1.dmaTimeouts = devT.dmaTimeouts + 1)
    ∧ ((omni_handle_request devT rqSmall oracleF).1 = blk_status.BLK_STS_IOERR
       ∧ (omni_handle_request devT rqSmall oracleF).2.1.dmaTimeouts = devT.dmaTimeouts + 1
       ∧ (omni_handle_request devT rqSmall oracleF).2.1.dmaErrors = devT.dmaErrors + 1) := by
  have h1 := claimC2_amended.1 devT 0 64 false
  have h2 := claimC2_amended.2 devT rqSmall [42] [] rfl (by decide)
  exact ⟨⟨h1.1, h1.2.1⟩, h2.1, h2.2.1, h2.2.2.1⟩

/-- C7: the interrupt handler first reads the status register; with the done
bit clear it returns IRQ_NONE and changes nothing, with it set it signals the
completion, bumps exactly the irq counter and returns IRQ_HANDLED; it never
flushes caches and never touches another counter. -/
theorem claimC7 (dev : OmniBlkdev) :
    (omni_dma_irq_handler dev).2.2.head? = some (Ev.regRead DMA_STATUS)
    ∧ (if dev.regs DMA_STATUS &&& DMA_STATUS_DONE = 0 then
         (omni_dma_irq_handler dev).1 = irqreturn.IRQ_NONE
         ∧ (omni_dma_irq_handler dev).2.1 = dev
         ∧ (omni_dma_irq_handler dev).2.2 = [Ev.regRead DMA_STATUS]
       else
         (omni_dma_irq_handler dev).1 = irqreturn.IRQ_HANDLED
         ∧ (omni_dma_irq_handler dev).2.1.completionDone = true
         ∧ (omni_dma_irq_handler dev).2.1.irqCount = dev.irqCount + 1
         ∧ (omni_dma_irq_handler dev).2.1.dmaReads = dev.dmaReads
         ∧ (omni_dma_irq_handler dev).2.1.dmaWrites = dev.dmaWrites
         ∧ (omni_dma_irq_handler dev).2.1.dmaErrors = dev.dmaErrors
         ∧ (omni_dma_irq_handler dev).2.1.dmaTimeouts = dev.dmaTimeouts
         ∧ (omni_dma_irq_handler dev).2.2
             = [Ev.regRead DMA_STATUS, Ev.complete, Ev.ctr Cnt.irqs])
    ∧ (∀ a l, Ev.flush a l ∉ (omni_dma_irq_handler dev).2.2)
    ∧ (∀ c, c ≠ Cnt.irqs → Ev.ctr c ∉ (omni_dma_irq_handler dev).2.2) := by
  by_cases h : dev.regs DMA_STATUS &&& DMA_STATUS_DONE = 0 <;>
  · refine ⟨?_, ?_, ?_, ?_⟩
    · simp [omni_dma_irq_handler, h]
    · simp [omni_dma_irq_handler, h]
    · intro a l
      simp [omni_dma_irq_handler, h]
    · intro c hc
      simp [omni_dma_irq_handler, h, hc]

/-- C7 witness: the handler evaluated at a device whose status register has
the done bit set. -/
theorem claimC7_witness :
    (omni_dma_irq_handler devS4).2.2.head? = some (Ev.regRead DMA_STATUS)
    ∧ (if devS4.regs DMA_STATUS &&& DMA_STATUS_DONE = 0 then
         (omni_dma_irq_handler devS4).1 = irqreturn.IRQ_NONE
         ∧ (omni_dma_irq_handler devS4).2.1 = devS4
         ∧ (omni_dma_irq_handler devS4).2.2 = [Ev.regRead DMA_STATUS]
       else
         (omni_dma_irq_handler devS4).1 = irqreturn.IRQ_HANDLED
         ∧ (omni_dma_irq_handler devS4).2.1.completionDone = true
         ∧ (omni_dma_irq_handler devS4).2.1.irqCount = devS4.irqCount + 1
         ∧ (omni_dma_irq_handler devS4).2.1.dmaReads = devS4.dmaReads
         ∧ (omni_dma_irq_handler devS4).2.1.dmaWrites = devS4.dmaWrites
         ∧ (omni_dma_irq_handler devS4).2.1.dmaErrors = devS4.dmaErrors
         ∧ (omni_dma_irq_handler devS4).2.1.dmaTimeouts = devS4.dmaTimeouts
         ∧ (omni_dma_irq_handler devS4).2.2
             = [Ev.regRead DMA_STATUS, Ev.complete, Ev.ctr Cnt.irqs])
    ∧ (∀ a l, Ev.flush a l ∉ (omni_dma_irq_handler devS4).2.2)
    ∧ (∀ c, c ≠ Cnt.irqs → Ev.ctr c ∉ (omni_dma_irq_handler devS4).2.2) :=
  claimC7 devS4

/-- C8: omni_queue_rq rejects any operation other than read or write with
BLK_STS_IOERR, leaving the device untouched with an empty trace, the request
not started and not ended; for read and write it starts the request,
delegates to omni_handle_request and ends the request with its status. -/
theorem claimC8 (dev : OmniBlkdev) (rq : request) (oracle : Nat → Bool) :
    omni_queue_rq dev rq oracle
      = if rq.op = req_op.REQ_OP_READ ∨ rq.op = req_op.REQ_OP_WRITE then
          (blk_status.BLK_STS_OK, (omni_handle_request dev rq oracle).2.1,
           (omni_handle_request dev rq oracle).2.2.1,
           (omni_handle_request dev rq oracle).2.2.2,
           true, some (omni_handle_request dev rq oracle).1)
        else
          (blk_status.BLK_STS_IOERR, dev, rq.segments, [], false, none) := by
  rcases rq with ⟨sector, op, segments⟩
  cases op <;> simp [omni_queue_rq]

/-- C8 witness: the entry point evaluated at an unsupported request kind. -/
theorem claimC8_witness :
    omni_queue_rq devT rqOther oracleT
      = if rqOther.op = req_op.REQ_OP_READ ∨ rqOther.op = req_op.REQ_OP_WRITE then
          (blk_status.BLK_STS_OK, (omni_handle_request devT rqOther oracleT).2.1,
           (omni_handle_request devT rqOther oracleT).2.2.1,
           (omni_handle_request devT rqOther oracleT).2.2.2,
           true, some (omni_handle_request devT rqOther oracleT).1)
        else
          (blk_status.BLK_STS_IOERR, devT, rqOther.segments, [], false, none) :=
  claimC8 devT rqOther oracleT

/-- C9: the "done" test differs by variant: the block-device driver's
interrupt handler reports a transfer done exactly when bit 0x4 of the status
register is set, while the scenario test tool's polling loop tests bit 0x1;
status value 0x4 is done for the driver but not for the test tool. -/
theorem claimC9 (dev : OmniBlkdev) (s : Nat) :
    ((omni_dma_irq_handler dev).1 = irqreturn.IRQ_HANDLED ↔
      dev.regs DMA_STATUS &&& 0x4 ≠ 0)
    ∧ (scenario_status_done s = true ↔ s &&& 0x1 ≠ 0)
    ∧ DMA_STATUS_DONE = 0x4
    ∧ omni_chardev.DMA_STATUS_DONE = 0x1
    ∧ (0x4 &&& DMA_STATUS_DONE ≠ 0)
    ∧ scenario_status_done 0x4 = false := by
  refine ⟨?_, ?_, rfl, rfl, by decide, by decide⟩
  · by_cases h : dev.regs DMA_STATUS &&& DMA_STATUS_DONE = 0
    · simp only [DMA_STATUS_DONE] at h
      simp [omni_dma_irq_handler, DMA_STATUS_DONE, h]
    · simp only [DMA_STATUS_DONE] at h
      simp [omni_dma_irq_handler, DMA_STATUS_DONE, h]
  · simp [scenario_status_done, bne_iff_ne]

/-- C9 witness: the variant done tests evaluated at a device with status 0x4
and at the status value 5. -/
theorem claimC9_witness :
    ((omni_dma_irq_handler devS4).1 = irqreturn.IRQ_HANDLED ↔
      devS4.regs DMA_STATUS &&& 0x4 ≠ 0)
    ∧ (scenario_status_done 5 = true ↔ 5 &&& 0x1 ≠ 0)
    ∧ DMA_STATUS_DONE = 0x4
    ∧ omni_chardev.DMA_STATUS_DONE = 0x1
    ∧ (0x4 &&& DMA_STATUS_DONE ≠ 0)
    ∧ scenario_status_done 0x4 = false :=
  claimC9 devS4 5

/-- C10: the blk-mq callback's own return value is BLK_STS_OK whenever the
operation kind is read or write — even when request processing failed — and
BLK_STS_IOERR exactly when the kind is unsupported; the processing status is
delivered only through blk_mq_end_request. -/
theorem claimC10 (dev : OmniBlkdev) (rq : request) (oracle : Nat → Bool) :
    (omni_queue_rq dev rq oracle).1
      = (if rq.op = req_op.REQ_OP_READ ∨ rq.op = req_op.REQ_OP_WRITE then
          blk_status.BLK_STS_OK else blk_status.BLK_STS_IOERR)
    ∧ (omni_queue_rq dev rq oracle).2.2.2.2.2
      = (if rq.op = req_op.REQ_OP_READ ∨ rq.op = req_op.REQ_OP_WRITE then
          some (omni_handle_request dev rq oracle).1 else none)
    ∧ ((omni_queue_rq dev rq oracle).1 = blk_status.BLK_STS_IOERR ↔
        ¬(rq.op = req_op.REQ_OP_READ ∨ rq.op = req_op.REQ_OP_WRITE)) := by
  rcases rq with ⟨sector, op, segments⟩
  cases op <;> simp [omni_queue_rq]

/-- C10 witness: a read request whose only chunk times out: the callback
still returns BLK_STS_OK while the IOERR status goes to blk_mq_end_request. -/
theorem claimC10_witness :
    ((omni_queue_rq devT rqSmall oracleF).1
      = (if rqSmall.op = req_op.REQ_OP_READ ∨ rqSmall.op = req_op.REQ_OP_WRITE then
          blk_status.BLK_STS_OK else blk_status.BLK_STS_IOERR)
    ∧ (omni_queue_rq devT rqSmall oracleF).2.2.2.2.2
      = (if rqSmall.op = req_op.REQ_OP_READ ∨ rqSmall.op = req_op.REQ_OP_WRITE then
          some (omni_handle_request devT rqSmall oracleF).1 else none))
    ∧ (omni_queue_rq devT rqSmall oracleF).2.2.2.2.2 = some blk_status.BLK_STS_IOERR := by
  have h := claimC10 devT rqSmall oracleF
  exact ⟨⟨h.1, h.2.1⟩, by decide⟩

/-! ### The chunk schedule of the request chunker -/

lemma listStore_length (l : List Nat) (offset : Nat) (bs : List Nat) :
    (listStore l offset bs).length = l.length := by
  simp [listStore]

lemma xcallLens_append (a b : List Ev) :
    xcallLens (a ++ b) = xcallLens a ++ xcallLens b := by
  simp [xcallLens, List.filterMap_append]

lemma xcallLens_do_dma (dev : OmniBlkdev) (off len : Nat) (w ok : Bool) :
    xcallLens (omni_do_dma_transfer dev off len w ok).2.2 = [len] := by
  cases ok
  · rw [do_dma_tr_timeout]
    simp [xcallLens, xferPrefix]
  · rw [do_dma_tr_ok]
    simp [xcallLens, xferPrefix]

lemma segChunks_step (B r : Nat) (hB : 0 < B) (hr : 0 < r) :
    min r B :: segChunks B (r - min r B) = segChunks B r := by
  rcases Nat.lt_or_ge r B with h | h
  · have hmin : min r B = r := Nat.min_eq_left (Nat.le_of_lt h)
    simp only [segChunks, hmin, Nat.sub_self, Nat.zero_div, Nat.zero_mod,
      Nat.div_eq_of_lt h, Nat.mod_eq_of_lt h]
    simp [Nat.pos_iff_ne_zero.mp hr]
  · have hmin : min r B = B := Nat.min_eq_right h
    simp only [segChunks, hmin, Nat.div_eq_sub_div hB h, Nat.mod_eq_sub_mod h,
      List.replicate_succ]
    simp

lemma segChunks_len (B L : Nat) (hB : 0 < B) :
    (segChunks B L).length = (L + B - 1) / B := by
  have hd := Nat.div_add_mod L B
  have hm := Nat.mod_lt L hB
  by_cases h0 : L % B = 0
  · have h1 : L + B - 1 = B * (L / B) + (B - 1) := by omega
    simp [segChunks, h0, h1, Nat.mul_add_div hB, Nat.div_eq_of_lt (show B - 1 < B by omega)]
  · have h1 : L + B - 1 = B * (L / B + 1) + (L % B - 1) := by
      have h2 : B * (L / B + 1) = B * (L / B) + B := by ring
      omega
    simp [segChunks, h0, h1, Nat.mul_add_div hB,
      Nat.div_eq_of_lt (show L % B - 1 < B by omega)]

lemma segChunks_le (B L : Nat) (hB : 0 < B) : ∀ c ∈ segChunks B L, c ≤ B := by
  intro c hc
  simp only [segChunks] at hc
  rcases List.mem_append.mp hc with h1 | h1
  · exact Nat.le_of_eq (List.eq_of_mem_replicate h1)
  · by_cases h0 : L % B = 0
    · rw [if_pos h0] at h1
      cases h1
    · rw [if_neg h0] at h1
      rw [List.mem_singleton] at h1
      rw [h1]
      exact Nat.le_of_lt (Nat.mod_lt L hB)

lemma segChunks_dropLast (B L : Nat) (hB : 0 < B) :
    ∀ c ∈ (segChunks B L).dropLast, c = B := by
  intro c hc
  by_cases h0 : L % B = 0
  · have hc' : c ∈ segChunks B L := (List.dropLast_sublist _).subset hc
    simp only [segChunks, h0] at hc'
    rcases List.mem_append.mp hc' with h1 | h1
    · exact List.eq_of_mem_replicate h1
    · simp at h1
  · simp only [segChunks, if_neg h0, List.dropLast_concat] at hc
    exact List.eq_of_mem_replicate hc

lemma chunk_loop_xcalls (oracle : Nat → Bool) (w : Bool) (o : Nat)
    (hor : ∀ i, oracle i = true) :
    ∀ (fuel : Nat) (dev : OmniBlkdev) (buf : List Nat) (offset cidx : Nat),
      0 < dev.dmaBufferSize → buf.length - offset ≤ fuel →
      xcallLens (omni_chunk_loop oracle w o fuel dev buf offset cidx).2.2.2.1
          = segChunks dev.dmaBufferSize (buf.length - offset)
      ∧ (omni_chunk_loop oracle w o fuel dev buf offset cidx).1 = 0
      ∧ (omni_chunk_loop oracle w o fuel dev buf offset cidx).2.1.dmaBufferSize
          = dev.dmaBufferSize := by
  cases w with
  | false =>
    intro fuel
    induction fuel with
    | zero =>
      intro dev buf offset cidx hB hf
      have h0 : buf.length - offset = 0 := Nat.le_zero.mp hf
      simp [omni_chunk_loop, xcallLens, segChunks, h0]
    | succ n ih =>
      intro dev buf offset cidx hB hf
      by_cases h : offset < buf.length
      · rw [chunk_loop_step_ok oracle false o n dev buf offset cidx h (hor cidx)]
        simp only [Bool.false_eq_true, ↓reduceIte]
        set C := min (buf.length - offset) dev.dmaBufferSize with hCdef
        set D := (omni_do_dma_transfer dev (o + offset) C false true).2.1 with hDdef
        set U := listStore buf offset (readBytes D.mem D.dmaBufferPhys C) with hUdef
        have hDB : D.dmaBufferSize = dev.dmaBufferSize := (do_dma_geom _ _ _ _ _).2.1
        have hUL : U.length = buf.length := listStore_length _ _ _
        have hC : 0 < C := by rw [hCdef]; omega
        have hih := ih D U (offset + C) (cidx + 1) (by rw [hDB]; exact hB)
          (by rw [hUL]; omega)
        refine ⟨?_, hih.2.1, hih.2.2.trans hDB⟩
        rw [xcallLens_append, xcallLens_append, xcallLens_append, xcallLens_do_dma,
          hih.1, hDB, hUL]
        have harith : buf.length - (offset + C) = buf.length - offset - C := by omega
        rw [harith]
        simp only [xcallLens, List.filterMap_nil, List.filterMap_cons, List.nil_append,
          List.append_nil]
        exact segChunks_step dev.dmaBufferSize (buf.length - offset) hB (by omega)
      · rw [chunk_loop_exit oracle false o (n + 1) dev buf offset cidx h]
        have h0 : buf.length - offset = 0 := by omega
        simp [xcallLens, segChunks, h0]
  | true =>
    intro fuel
    induction fuel with
    | zero =>
      intro dev buf offset cidx hB hf
      have h0 : buf.length - offset = 0 := Nat.le_zero.mp hf
      simp [omni_chunk_loop, xcallLens, segChunks, h0]
    | succ n ih =>
      intro dev buf offset cidx hB hf
      by_cases h : offset < buf.length
      · rw [chunk_loop_step_ok oracle true o n dev buf offset cidx h (hor cidx)]
        simp only [↓reduceIte]
        set C := min (buf.length - offset) dev.dmaBufferSize with hCdef
        set D := (omni_do_dma_transfer
          { dev with mem := writeBytes dev.mem dev.dmaBufferPhys (listSlice buf offset C) }
          (o + offset) C true true).2.1 with hDdef
        have hDB : D.dmaBufferSize = dev.dmaBufferSize := (do_dma_geom _ _ _ _ _).2.1
        have hC : 0 < C := by rw [hCdef]; omega
        have hih := ih D buf (offset + C) (cidx + 1) (by rw [hDB]; exact hB) (by omega)
        refine ⟨?_, hih.2.1, hih.2.2.trans hDB⟩
        rw [xcallLens_append, xcallLens_append, xcallLens_append, xcallLens_do_dma,
          hih.1, hDB]
        have harith : buf.length - (offset + C) = buf.length - offset - C := by omega
        rw [harith]
        simp only [xcallLens, List.filterMap_nil, List.filterMap_cons, List.nil_append,
          List.append_nil]
        exact segChunks_step dev.dmaBufferSize (buf.length - offset) hB (by omega)
      · rw [chunk_loop_exit oracle true o (n + 1) dev buf offset cidx h]
        have h0 : buf.length - offset = 0 := by omega
        simp [xcallLens, segChunks, h0]

lemma seg_loop_xcalls (oracle : Nat → Bool) (w : Bool) (hor : ∀ i, oracle i = true) :
    ∀ (segs : List (List Nat)) (dev : OmniBlkdev) (sector cidx : Nat),
      0 < dev.dmaBufferSize →
      xcallLens (omni_seg_loop oracle w segs dev sector cidx).2.2.2.1
          = segs.flatMap (fun s => segChunks dev.dmaBufferSize s.length)
      ∧ (omni_seg_loop oracle w segs dev sector cidx).1 = blk_status.BLK_STS_OK
      ∧ (omni_seg_loop oracle w segs dev sector cidx).2.1.dmaBufferSize
          = dev.dmaBufferSize := by
  intro segs
  induction segs with
  | nil =>
    intro dev sector cidx hB
    simp [omni_seg_loop, xcallLens]
  | cons buf rest ih =>
    intro dev sector cidx hB
    have hchunk := chunk_loop_xcalls oracle w (sector * OMNI_SECTOR_SIZE) hor
      buf.length dev buf 0 cidx hB (by omega)
    simp only [omni_seg_loop, if_pos hchunk.2.1]
    have hih := ih (omni_chunk_loop oracle w (sector * OMNI_SECTOR_SIZE)
        buf.length dev buf 0 cidx).2.1 (sector + buf.length / OMNI_SECTOR_SIZE)
      (omni_chunk_loop oracle w (sector * OMNI_SECTOR_SIZE)
        buf.length dev buf 0 cidx).2.2.2.2 (by rw [hchunk.2.2]; exact hB)
    refine ⟨?_, hih.2.1, hih.2.2.trans hchunk.2.2⟩
    rw [xcallLens_append, hchunk.1, hih.1]
    simp only [hchunk.2.2]
    simp

/-- C3: with every chunk completing in time, the executor-invocation lengths
of a request are, segment by segment, exactly the chunk schedule
segChunks B L: for a segment of length L > 0 that is ceil(L/B) invocations,
each of length at most B, all but the last of length exactly B. -/
theorem claimC3 (dev : OmniBlkdev) (rq : request) (oracle : Nat → Bool) (L : Nat)
    (hB : 0 < dev.dmaBufferSize) (hor : ∀ i, oracle i = true) (hL : 0 < L) :
    xcallLens (omni_handle_request dev rq oracle).2.2.2
        = rq.segments.flatMap (fun s => segChunks dev.dmaBufferSize s.length)
    ∧ (segChunks dev.dmaBufferSize L).length
        = (L + dev.dmaBufferSize - 1) / dev.dmaBufferSize
    ∧ (∀ c ∈ segChunks dev.dmaBufferSize L, c ≤ dev.dmaBufferSize)
    ∧ (∀ c ∈ (segChunks dev.dmaBufferSize L).dropLast, c = dev.dmaBufferSize) := by
  refine ⟨?_, segChunks_len _ _ hB, segChunks_le _ _ hB, segChunks_dropLast _ _ hB⟩
  have hseg := seg_loop_xcalls oracle (req_is_write rq) hor rq.segments
    { dev with mutexLocked := true } rq.sector 0 hB
  have htr : (omni_handle_request dev rq oracle).2.2.2
      = Ev.lock :: (omni_seg_loop oracle (req_is_write rq) rq.segments
          { dev with mutexLocked := true } rq.sector 0).2.2.2.1 ++ [Ev.unlock] := rfl
  have hwrap : ∀ l : List Ev, xcallLens (Ev.lock :: l ++ [Ev.unlock]) = xcallLens l := by
    intro l
    simp [xcallLens, List.filterMap_append, List.filterMap_cons]
  rw [htr, hwrap]
  exact hseg.1

/-- C3 witness: a ten-byte segment with a four-byte bounce buffer gives the
chunk schedule 4, 4, 2. -/
theorem claimC3_witness :
    (0 < devT4.dmaBufferSize) ∧ (∀ i, oracleT i = true) ∧ ((0 : Nat) < 10)
    ∧ (xcallLens (omni_handle_request devT4 rqChunks oracleT).2.2.2
        = rqChunks.segments.flatMap (fun s => segChunks devT4.dmaBufferSize s.length)
       ∧ (segChunks devT4.dmaBufferSize 10).length
           = (10 + devT4.dmaBufferSize - 1) / devT4.dmaBufferSize
       ∧ (∀ c ∈ segChunks devT4.dmaBufferSize 10, c ≤ devT4.dmaBufferSize)
       ∧ (∀ c ∈ (segChunks devT4.dmaBufferSize 10).dropLast, c = devT4.dmaBufferSize))
    ∧ xcallLens (omni_handle_request devT4 rqChunks oracleT).2.2.2 = [4, 4, 2] := by
  refine ⟨by decide, fun _ => rfl, by decide,
    claimC3 devT4 rqChunks oracleT 10 (by decide) (fun _ => rfl) (by decide), by decide⟩

/-! ### The data path: round trip through the bounce buffer -/

lemma copyMem_in (mem : Nat → Nat) (src dst len a : Nat)
    (h : dst ≤ a ∧ a < dst + len) :
    copyMem mem src dst len a = mem (src + (a - dst)) := by
  unfold copyMem
  rw [if_pos h]

lemma writeBytes_in (mem : Nat → Nat) (dst : Nat) (bs : List Nat) (a : Nat)
    (h : dst ≤ a ∧ a < dst + bs.length) :
    writeBytes mem dst bs a = bs.getD (a - dst) 0 % 256 := by
  unfold writeBytes
  rw [if_pos h]

lemma u32_split (x : Nat) (hx : x < 2 ^ 64) :
    u32 x + u32 (x / 2 ^ 32) * 2 ^ 32 = x := by
  simp only [u32]
  omega

lemma listSlice_all (bs : List Nat) : listSlice bs 0 bs.length = bs := by
  simp [listSlice]

lemma listStore_full (r0 bs : List Nat) (h : r0.length = bs.length) :
    listStore r0 0 bs = bs := by
  apply List.ext_getElem
  · simp [listStore, h]
  · intro i h1 h2
    simp only [listStore, List.getElem_map, List.getElem_range]
    rw [if_pos ⟨Nat.zero_le _, by omega⟩]
    rw [show i - 0 = i from rfl]
    exact (List.getD_eq_getElem bs 0 h2).trans rfl

lemma roundtrip_readBytes (mem0 : Nat → Nat) (bs : List Nat) (bounce remote : Nat)
    (hbytes : ∀ b ∈ bs, b < 256) :
    readBytes (copyMem (copyMem (writeBytes mem0 bounce bs) bounce remote bs.length)
        remote bounce bs.length) bounce bs.length = bs := by
  apply List.ext_getElem
  · simp [readBytes]
  · intro i h1 h2
    simp only [readBytes, List.getElem_map, List.getElem_range]
    rw [copyMem_in _ _ _ _ _ ⟨by omega, by omega⟩]
    rw [show remote + (bounce + i - bounce) = remote + i from by omega]
    rw [copyMem_in _ _ _ _ _ ⟨by omega, by omega⟩]
    rw [show bounce + (remote + i - remote) = bounce + i from by omega]
    rw [writeBytes_in _ _ _ _ ⟨by omega, by omega⟩]
    rw [show bounce + i - bounce = i from by omega]
    rw [List.getD_eq_getElem bs 0 h2]
    exact Nat.mod_eq_of_lt (hbytes _ (List.getElem_mem h2))

lemma do_dma_ok_mem (dev : OmniBlkdev) (off len : Nat) (w : Bool)
    (hs : dev.dmaBufferPhys < 2 ^ 64) (hr : dev.omniMemPhys + off < 2 ^ 64)
    (hl : len < 2 ^ 32) :
    (omni_do_dma_transfer dev off len w true).2.1.mem
      = copyMem dev.mem (if w then dev.dmaBufferPhys else dev.omniMemPhys + off)
          (if w then dev.omniMemPhys + off else dev.dmaBufferPhys) len := by
  have hlen : u32 len + u32 0 * 2 ^ 32 = len := by
    simp only [u32]
    omega
  cases w with
  | false =>
    rw [show (omni_do_dma_transfer dev off len false true).2.1.mem
        = copyMem dev.mem
            (u32 (dev.omniMemPhys + off) + u32 ((dev.omniMemPhys + off) / 2 ^ 32) * 2 ^ 32)
            (u32 dev.dmaBufferPhys + u32 (dev.dmaBufferPhys / 2 ^ 32) * 2 ^ 32)
            (u32 len + u32 0 * 2 ^ 32) from rfl]
    rw [u32_split _ hr, u32_split _ hs, hlen]
    rfl
  | true =>
    rw [show (omni_do_dma_transfer dev off len true true).2.1.mem
        = copyMem dev.mem
            (u32 dev.dmaBufferPhys + u32 (dev.dmaBufferPhys / 2 ^ 32) * 2 ^ 32)
            (u32 (dev.omniMemPhys + off) + u32 ((dev.omniMemPhys + off) / 2 ^ 32) * 2 ^ 32)
            (u32 len + u32 0 * 2 ^ 32) from rfl]
    rw [u32_split _ hs, u32_split _ hr, hlen]
    rfl

set_option maxHeartbeats 4000000 in
/-- C4: writing the 256-byte pattern of words 0xBB000000 + i (i = 0 .. 63)
to sector 0 and then reading 256 bytes from sector 0, with every transfer
completing and the engine copying the programmed bytes, returns exactly the
written pattern, both requests succeeding. -/
theorem claimC4 :
    (omni_handle_request devT rqWpat oracleT).1 = blk_status.BLK_STS_OK
    ∧ (omni_handle_request (omni_handle_request devT rqWpat oracleT).2.1 rqRpat oracleT).1
        = blk_status.BLK_STS_OK
    ∧ (omni_handle_request (omni_handle_request devT rqWpat oracleT).2.1 rqRpat oracleT).2.2.1
        = [patternBuf] := by
  decide
